import Mathlib

/-!
Verification of the state-synchronization core of the mate-rov-2023
repository: the connection guard and transport event loop
(`src/common/src/network.rs`), the status system
(`src/robot/src/systems/status.rs`), the robot coordinator system
(`src/robot/src/systems/robot.rs`) and the surface-side store plumbing
(`src/surface/src/plugins/robot.rs`), shallowly embedded as pure Lean
functions.  Timestamps (`Instant`) are modelled as natural numbers
(milliseconds); the packet type is opaque to the connection layer, so a
packet is a natural number and the codec is a function parameter.
-/

set_option autoImplicit false

/-! ## Network layer (`src/common/src/network.rs`) -/

/-- Endpoints are opaque identifiers (`message_io::network::Endpoint`). -/
abbrev Endpoint := Nat

/-- The application packet union is opaque to the connection layer
(`common::protocol::Packet`); the codec is passed as a function. -/
abbrev Packet := Nat

/-- Raw wire bytes. -/
abbrev Bytes := List Nat

/-- `const TIMEOUT: Duration = Duration::from_secs(10)` in milliseconds. -/
def TIMEOUT : Nat := 10000

/-- `struct Connection { endpoint, last_packet }`. -/
structure Connection where
  endpoint : Endpoint
  last_packet : Nat
deriving DecidableEq

/-- `message_io::network::SendStatus`. -/
inductive SendStatus where
  | sent
  | maxPacketSizeExceeded
  | resourceNotFound
  | resourceNotAvailable
deriving DecidableEq

/-- Observable actions emitted by the network event loop: upstream
`EventHandler` callbacks, transmission attempts and error logs. -/
inductive NetAction where
  | connectedEvent (e : Endpoint)
  | connectionFailedEvent (e : Endpoint)
  | disconnectedEvent (e : Endpoint)
  | handlePacket (c : Connection) (p : Packet)
  | sendAttempt (e : Endpoint) (data : Bytes)
  | logError (msg : String)
deriving DecidableEq

/-- `message_io::network::NetEvent`. -/
inductive NetEvent where
  | accepted (e : Endpoint)
  | connected (e : Endpoint) (success : Bool)
  | message (e : Endpoint) (data : Bytes)
  | disconnected (e : Endpoint)
deriving DecidableEq

/-- `enum WorkerEvent { Broadcast(Packet) }`. -/
inductive WorkerEvent where
  | broadcast (p : Packet)
deriving DecidableEq

/-- `message_io::node::NodeEvent`. -/
inductive NodeEvent where
  | network (e : NetEvent)
  | signal (e : WorkerEvent)
deriving DecidableEq

/-- `Connection::write_packet`: encode the packet, perform one `send` on
the endpoint, and fail on any status other than `SendStatus::Sent`.  The
environment's reply to the single send call is the `status` argument.
Returns the emitted actions and the `anyhow::Result`. -/
def write_packet (encode : Packet → Option Bytes) (status : SendStatus)
    (c : Connection) (p : Packet) : List NetAction × Except String Unit :=
  match encode p with
  | none => ([], .error "Encode packet")
  | some data =>
    ([.sendAttempt c.endpoint data],
      match status with
      | .sent => .ok ()
      | _ => .error "Could not send packet")

/-- `handle_network_event` from `src/common/src/network.rs` (lines
135-196): the connection guard.  State is the `Option Connection` slot of
`NetworkContext`; `now` is the current instant.  Returns the new slot, the
actions emitted (in program order) and the `anyhow::Result`. -/
def handle_network_event (decode : Bytes → Option Packet)
    (conn : Option Connection) (now : Nat) (event : NetEvent) :
    Option Connection × List NetAction × Except String Unit :=
  match event with
  | .accepted e =>
    match conn with
    | some previous =>
      if now - previous.last_packet > TIMEOUT then
        (some ⟨e, now⟩, [.connectedEvent e], .ok ())
      else
        (some previous, [], .ok ())
    | none => (some ⟨e, now⟩, [.connectedEvent e], .ok ())
  | .connected e success =>
    if success then
      (some ⟨e, now⟩, [.connectedEvent e], .ok ())
    else
      (conn, [.logError "Could not connect to endpoint",
              .connectionFailedEvent e], .ok ())
  | .message _ data =>
    match decode data with
    | none => (conn, [], .error "Decode packet")
    | some p =>
      match conn with
      | some c =>
        (some ⟨c.endpoint, now⟩, [.handlePacket ⟨c.endpoint, now⟩ p], .ok ())
      | none =>
        (none, [.logError "Got packet from unknown endpoint"], .ok ())
  | .disconnected e => (none, [.disconnectedEvent e], .ok ())

/-- `handle_signal_event` (lines 199-210): a `Broadcast` signal writes the
packet to the current connection when one exists and does nothing
otherwise. -/
def handle_signal_event (encode : Packet → Option Bytes) (status : SendStatus)
    (conn : Option Connection) (event : WorkerEvent) :
    Option Connection × List NetAction × Except String Unit :=
  match event with
  | .broadcast p =>
    match conn with
    | some c =>
      let r := write_packet encode status c p
      (conn, r.1,
        match r.2 with
        | .ok () => .ok ()
        | .error msg => .error ("Send packet: " ++ msg))
    | none => (conn, [], .ok ())

/-- `handle_event` (lines 116-132): the outermost event-loop callback.
Errors from the inner handlers are logged and never propagated — the
return type has no error component. -/
def handle_event (decode : Bytes → Option Packet)
    (encode : Packet → Option Bytes) (status : SendStatus)
    (conn : Option Connection) (now : Nat) (event : NodeEvent) :
    Option Connection × List NetAction :=
  match event with
  | .network e =>
    let r := handle_network_event decode conn now e
    match r.2.2 with
    | .ok () => (r.1, r.2.1)
    | .error msg => (r.1, r.2.1 ++ [.logError ("Error handling packet: " ++ msg)])
  | .signal e =>
    let r := handle_signal_event encode status conn e
    match r.2.2 with
    | .ok () => (r.1, r.2.1)
    | .error msg => (r.1, r.2.1 ++ [.logError ("Error handling signal: " ++ msg)])

/-- Number of transmission attempts recorded in an action trace. -/
def sendAttempts (acts : List NetAction) : Nat :=
  acts.countP fun a =>
    match a with
    | .sendAttempt _ _ => true
    | _ => false

/-! ## Replicated store (modelled from the spec) and robot-side types -/

/-- `common::types::Armed`. -/
inductive Armed where
  | armed
  | disarmed
deriving DecidableEq

/-- `common::types::RobotStatus`.  `Percent` is modelled as a rational. -/
inductive RobotStatus where
  | noPeer
  | disarmed
  | ready
  | moving (speed : ℚ)
deriving DecidableEq

/-- Store keys (`common::store::Key`), restricted to the tokens the claims
need plus a generic family. -/
inductive Key where
  | armed
  | motorSpeed
  | status
  | other (n : Nat)
deriving DecidableEq

/-- `Key::as_str` (model names; the token table is not under `src/`). -/
def Key.as_str : Key → String
  | .armed => "armed"
  | .motorSpeed => "motor_speed"
  | .status => "status"
  | .other _ => "other"

/-- Store values: the union of the value types behind the keys above.
The motor-speed value is the map of per-motor speed percentages, modelled
as an association list from motor id to speed. -/
inductive Value where
  | armed (a : Armed)
  | speeds (l : List (Nat × ℚ))
  | status (s : RobotStatus)
  | nat (n : Nat)
deriving DecidableEq

/-- An `Update` is a `(Key, Option payload)` pair; `none` means delete. -/
abbrev Update := Key × Option Value

/-- Modelled from the spec: origin of a store entry — the spec's store
(`common/src/store.rs`, not under `src/`) separates remotely-applied
("shared") entries from locally-authored ("owned") ones (spec sections 3
and 4.4). -/
inductive Origin where
  | owned
  | shared
deriving DecidableEq

/-- Modelled from the spec: a store entry carries the value and its
last-write timestamp (spec section 3, "Store entry"), plus the origin
tag distinguishing shared from owned writes (section 4.4). -/
structure StoreEntry where
  value : Value
  lastWrite : Nat
  origin : Origin
deriving DecidableEq

/-- First-match lookup in an association list. -/
def alookup {β : Type} : List (Key × β) → Key → Option β
  | [], _ => none
  | (k', v) :: rest, k => if k' = k then some v else alookup rest k

/-- Replace the first binding of `k` (or append one). -/
def aset {β : Type} : List (Key × β) → Key → β → List (Key × β)
  | [], k, v => [(k, v)]
  | (k', v') :: rest, k, v =>
    if k' = k then (k, v) :: rest else (k', v') :: aset rest k v

/-- Remove every binding of `k`. -/
def aremove {β : Type} (l : List (Key × β)) (k : Key) : List (Key × β) :=
  l.filter fun kv => ¬(kv.1 = k)

/-- Modelled from the spec: the replicated store
(`common::store::Store`, `common/src/store.rs` not under `src/`) as a
key-indexed map of entries (spec section 4.4). -/
structure Store where
  entries : List (Key × StoreEntry)
deriving DecidableEq

/-- Modelled from the spec: `get(token)` returns the current value if
present (spec section 4.4). -/
def Store.get (s : Store) (k : Key) : Option Value :=
  (alookup s.entries k).map (·.value)

/-- Origin tag of the entry currently stored at `k`, if any. -/
def Store.origin (s : Store) (k : Key) : Option Origin :=
  (alookup s.entries k).map (·.origin)

/-- Modelled from the spec: `get_alive(token, max_age)` returns `none`
when the entry's last-write timestamp is older than `max_age`
(spec sections 4.4 and 8: `none` iff `now - lastWrite > max_age`). -/
def Store.get_alive (s : Store) (k : Key) (maxAge now : Nat) : Option Value :=
  match alookup s.entries k with
  | none => none
  | some e => if now - e.lastWrite > maxAge then none else some e.value

/-- Modelled from the spec: `insert(token, value)` stores the value with
origin `owned`, stamps the current time, and fires the change callback
with the corresponding update (spec section 4.4); the fired update is the
second component. -/
def Store.insert (s : Store) (k : Key) (v : Value) (now : Nat) :
    Store × Update :=
  (⟨aset s.entries k ⟨v, now, .owned⟩⟩, (k, some v))

/-- Modelled from the spec: `handle_update_shared` applies an update
received from the remote peer — a `none` payload deletes the key,
otherwise the value is stored with origin `shared`; the outward callback
is never invoked (spec section 4.4). -/
def Store.handle_update_shared (s : Store) (u : Update) (now : Nat) : Store :=
  match u with
  | (k, none) => ⟨aremove s.entries k⟩
  | (k, some v) => ⟨aset s.entries k ⟨v, now, .shared⟩⟩

/-- Modelled from the spec: `handle_update_owned` folds a locally
authored update into the store without re-triggering outbound
propagation (spec section 4.4). -/
def Store.handle_update_owned (s : Store) (u : Update) (now : Nat) : Store :=
  match u with
  | (k, none) => ⟨aremove s.entries k⟩
  | (k, some v) => ⟨aset s.entries k ⟨v, now, .owned⟩⟩

/-- Modelled from the spec: `reset()` clears the store contents
(spec section 4.4). -/
def Store.reset (_ : Store) : Store := ⟨[]⟩

/-- Modelled from the spec: `reset_shared()` clears the remote-origin
entries only (spec section 4.4). -/
def Store.reset_shared (s : Store) : Store :=
  ⟨s.entries.filter fun kv => kv.2.origin = .owned⟩

/-- Well-formed store: one entry per key. -/
def Store.wf (s : Store) : Prop := (s.entries.map Prod.fst).Nodup

/-! ## Status system (`src/robot/src/systems/status.rs`) -/

/-- Modelled from the spec: `motor::MAX_UPDATE_AGE`
(`robot/src/systems/motor.rs` is not under `src/`); the spec's staleness
scenario uses a 500 ms max age (sections 6 and 8). -/
def MAX_UPDATE_AGE : Nat := 500

/-- `speeds.values().map(|it| it.to_f64().abs()).max_by(f64::total_cmp)`:
maximum absolute speed over the motor-speed map, `none` when empty. -/
def maxAbsSpeed (l : List (Nat × ℚ)) : Option ℚ :=
  l.foldl
    (fun acc x =>
      match acc with
      | none => some |x.2|
      | some m => some (max m |x.2|))
    none

/-- `compute_status` from `src/robot/src/systems/status.rs` lines 79-103.
A wrong-variant value behind a token models the typed `get` returning
`None` defensively, hence the catch-all branches. -/
def compute_status (store : Store) (peers : Int) (now : Nat) : RobotStatus :=
  if peers = 0 then .noPeer
  else
    match store.get .armed with
    | some (.armed .armed) =>
      match store.get_alive .motorSpeed MAX_UPDATE_AGE now with
      | some (.speeds l) =>
        match maxAbsSpeed l with
        | some m => .moving m
        | none => .ready
      | _ => .ready
    | _ => .disarmed

/-- The robot-side event bus union (`crate::event::Event`), restricted to
the variants the embedded systems match on. -/
inductive BusEvent where
  | peerConnected (e : Nat)
  | peerDisconnected (e : Nat)
  | storeUpd (u : Update)
  | resetForignStore
  | syncStore
  | errorEvent
  | exitEvent
  | stateUpdate (us : List Update)
  | stateRefresh
deriving DecidableEq

/-- Local state of the status system's loop: its store, the peer counter
(`i32`, modelled as an unbounded integer) and the last published status. -/
structure StatusState where
  store : Store
  peers : Int
  last_status : Option RobotStatus
deriving DecidableEq

/-- The tail of a recomputing iteration of the status loop
(`src/robot/src/systems/status.rs` lines 63-71): compute the status and,
when it differs from `last_status`, insert it at the `STATUS` token —
whose change callback broadcasts it — and remember it. -/
def status_publish (s1 : StatusState) (now : Nat) :
    StatusState × List RobotStatus :=
  let st := compute_status s1.store s1.peers now
  if s1.last_status ≠ some st then
    ({ s1 with
        store := (s1.store.insert .status (.status st) now).1,
        last_status := some st }, [st])
  else (s1, [])

/-- One iteration of the status system's event loop
(`StatusSystem::start`, `src/robot/src/systems/status.rs` lines 31-72).
Returns the new local state and the statuses published by this iteration.
The first six variants set `recompute_state` to true in the source; the
rest fall through to the `_ => false` arm (`Exit` returns from the
loop). -/
def status_step (s : StatusState) (ev : BusEvent) (now : Nat) :
    StatusState × List RobotStatus :=
  match ev with
  | .peerConnected _ => status_publish { s with peers := s.peers + 1 } now
  | .peerDisconnected _ => status_publish { s with peers := s.peers - 1 } now
  | .storeUpd u =>
    status_publish { s with store := s.store.handle_update_shared u now } now
  | .resetForignStore =>
    status_publish { s with store := s.store.reset_shared } now
  | .syncStore => status_publish { s with last_status := none } now
  | .errorEvent => status_publish s now
  | .exitEvent => (s, [])
  | .stateUpdate _ => (s, [])
  | .stateRefresh => (s, [])

/-- Run the status loop over a list of events, collecting every published
status in order. -/
def status_run (s : StatusState) (evs : List BusEvent) (now : Nat) :
    StatusState × List RobotStatus :=
  match evs with
  | [] => (s, [])
  | ev :: rest =>
    let r := status_step s ev now
    let r' := status_run r.1 rest now
    (r'.1, r.2 ++ r'.2)

/-! ## Robot coordinator system (`src/robot/src/systems/robot.rs`) -/

/-- Modelled from the spec: `common::state::RobotState`
(`common/src/state.rs` is not under `src/`) — the authoritative state as
a field map; `update` applies one field update and returns whether the
field changed (spec sections 3 "RobotState" and 4.6). -/
structure RobotState where
  fields : List (Key × Value)
deriving DecidableEq

/-- Modelled from the spec: `RobotState::update` — apply the field write
and report whether the field actually changed (spec section 4.6: "the
store's `update` returns whether the field changed"). -/
def RobotState.update (r : RobotState) (u : Update) : RobotState × Bool :=
  match u with
  | (k, some v) =>
    (⟨aset r.fields k v⟩, decide (alookup r.fields k ≠ some v))
  | (k, none) =>
    (⟨aremove r.fields k⟩, decide (alookup r.fields k ≠ none))

/-- Modelled from the spec: `RobotState::to_updates` — one update per
current field. -/
def RobotState.to_updates (r : RobotState) : List Update :=
  r.fields.map fun kv => (kv.1, some kv.2)

/-- Lock operations and event sends performed by the robot coordinator
thread, in program order. -/
inductive RAction where
  | acquireWrite
  | releaseWrite
  | acquireRead
  | releaseRead
  | packetSend (updates : List Update)
deriving DecidableEq

/-- The body of the write-lock scope in `RobotSystem::start`
(`src/robot/src/systems/robot.rs` lines 26-33): apply the batch in order,
collecting the updates whose application changed the state. -/
def process_state_update : RobotState → List Update → RobotState × List Update
  | r, [] => (r, [])
  | r, u :: rest =>
    let s := r.update u
    let t := process_state_update s.1 rest
    (t.1, if s.2 then u :: t.2 else t.2)

/-- One iteration of the robot coordinator's event loop
(`RobotSystem::start`, lines 22-44).  A `StateUpdate` batch is applied
under one write-lock acquisition and followed by a single
`PacketSend(RobotState(changed))` event; `StateRefresh` reads the whole
state under the read lock. -/
def robot_system_step (r : RobotState) (ev : BusEvent) :
    RobotState × List RAction :=
  match ev with
  | .stateUpdate updates =>
    let t := process_state_update r updates
    (t.1, [.acquireWrite, .releaseWrite, .packetSend t.2])
  | .stateRefresh =>
    (r, [.acquireRead, .releaseRead, .packetSend r.to_updates])
  | _ => (r, [])

/-! ## Surface-side store plumbing (`src/surface/src/plugins/robot.rs`) -/

/-- `RobotEvent` on the surface side, restricted to the variants
`update_robot` matches on. -/
inductive SurfaceEvent where
  | storeUpd (u : Update)
  | ping
  | connectedS (a : Nat)
  | disconnectedS (a : Nat)
  | errorS
deriving DecidableEq

/-- `update_robot` (`src/surface/src/plugins/robot.rs` lines 114-126):
fold the pending `RobotEvent`s into the surface store.  A `Store` event
is applied as a shared update; `Connected` and `Disconnected` both call
`robot.0.reset()`. -/
def update_robot (store : Store) (events : List SurfaceEvent) (now : Nat) :
    Store :=
  events.foldl
    (fun st ev =>
      match ev with
      | .storeUpd u => st.handle_update_shared u now
      | .connectedS _ => st.reset
      | .disconnectedS _ => st.reset
      | _ => st)
    store

/-- Outbound actions of `updates_to_packets`: a network send event or an
error log. -/
inductive SAction where
  | send (k : Key) (payload : Option Bytes)
  | logError (msg : String)
deriving DecidableEq

/-- `updates_to_packets` (`src/surface/src/plugins/robot.rs` lines
129-165): drain the pending owned updates; each is folded into the store
with `handle_update_owned`, then serialized through the adapter registry
and sent — a missing adapter or a failed serialization is an error log
and no send, and processing continues with the next update. -/
def updates_to_packets (adapters : Key → Option (Value → Option Bytes))
    (store : Store) (pending : List Update) (now : Nat) :
    Store × List SAction :=
  match pending with
  | [] => (store, [])
  | u :: rest =>
    let st1 := store.handle_update_owned u now
    let acts : List SAction :=
      match adapters u.1 with
      | some serialize =>
        match u.2 with
        | some v =>
          match serialize v with
          | some data => [.send u.1 (some data)]
          | none => [.logError ("Could not encode " ++ u.1.as_str)]
        | none => [.send u.1 none]
      | none => [.logError ("No adapter found for " ++ u.1.as_str)]
    let t := updates_to_packets adapters st1 rest now
    (t.1, acts ++ t.2)

/-! ## Concrete instances used by counterexamples and witnesses -/

/-- Concrete store for the staleness scenario: armed, with the
motor-speed map holding motors `0 ↦ 40%` and `1 ↦ 61%` behind a single
last-write timestamp `lw`. -/
def c2Store (lw : Nat) : Store :=
  ⟨[(.armed, ⟨.armed .armed, 900, .shared⟩),
    (.motorSpeed, ⟨.speeds [(0, 40), (1, 61)], lw, .shared⟩)]⟩

/-- Initial state of the status system's loop. -/
def statusInit : StatusState := ⟨⟨[]⟩, 0, none⟩

/-- Concrete surface store holding one locally-authored entry and one
remotely-sourced entry. -/
def c3Store : Store :=
  ⟨[(.armed, ⟨.armed .armed, 0, .owned⟩),
    (.other 0, ⟨.nat 5, 0, .shared⟩)]⟩

/-- Concrete adapter registry: only the `armed` key has an adapter. -/
def c7Adapters : Key → Option (Value → Option Bytes) :=
  fun k => if k = .armed then some (fun _ => some [1]) else none

/-! ## Theorems -/

/-- C1: the Connection Guard holds at most one live connection (the slot
is a single `Option Connection`), and an inbound accept installs the
candidate — firing a `Connected` event — if and only if no current
connection exists or the current connection's last-packet age exceeds the
10-second timeout; otherwise the candidate is silently dropped, the
existing connection is kept unchanged, and no `Connected` event fires. -/
theorem accept_installs_iff_timeout (decode : Bytes → Option Packet)
    (conn : Option Connection) (e : Endpoint) (now : Nat) :
    ((NetAction.connectedEvent e ∈
        (handle_network_event decode conn now (.accepted e)).2.1) ↔
      (conn = none ∨ ∃ c, conn = some c ∧ now - c.last_packet > TIMEOUT))
  ∧ (NetAction.connectedEvent e ∈
        (handle_network_event decode conn now (.accepted e)).2.1 →
      (handle_network_event decode conn now (.accepted e)).1 = some ⟨e, now⟩)
  ∧ (NetAction.connectedEvent e ∉
        (handle_network_event decode conn now (.accepted e)).2.1 →
      (handle_network_event decode conn now (.accepted e)).1 = conn ∧
      (handle_network_event decode conn now (.accepted e)).2.1 = [])
  ∧ (∃ c, (handle_network_event decode conn now (.accepted e)).1 = some c) := by
  cases conn with
  | none => simp [handle_network_event]
  | some c =>
    by_cases h : now - c.last_packet > TIMEOUT
    · simp [handle_network_event, h]
    · simp [handle_network_event, h]

/-- Witness for C1: with an empty slot, an accept fires `Connected`. -/
theorem accept_installs_iff_timeout_witness :
    NetAction.connectedEvent 3 ∈
      (handle_network_event (fun _ => none) none 5 (.accepted 3)).2.1 :=
  (accept_installs_iff_timeout (fun _ => none) none 3 5).1.mpr (Or.inl rfl)

/-- C6: a successfully decoded inbound message with a current connection
updates the connection's last-packet timestamp to `now` strictly before
the packet is handed to the upstream handler (the `handlePacket` action
carries the already-updated connection, which is also the post-state);
with no current connection the message is logged and dropped and the
packet handler is never invoked. -/
theorem message_updates_before_handling (decode : Bytes → Option Packet)
    (conn : Option Connection) (e : Endpoint) (now : Nat) (data : Bytes)
    (p : Packet) (h : decode data = some p) :
    (∀ c, conn = some c →
      handle_network_event decode conn now (.message e data)
        = (some ⟨c.endpoint, now⟩, [.handlePacket ⟨c.endpoint, now⟩ p], .ok ()))
  ∧ (conn = none →
      handle_network_event decode conn now (.message e data)
        = (none, [.logError "Got packet from unknown endpoint"], .ok ())
    ∧ ∀ c' p', NetAction.handlePacket c' p' ∉
        (handle_network_event decode conn now (.message e data)).2.1) := by
  constructor
  · intro c hc
    subst hc
    simp [handle_network_event, h]
  · intro hc
    subst hc
    refine ⟨by simp [handle_network_event, h], ?_⟩
    intro c' p'
    simp [handle_network_event, h]

/-- Witness for C6: a concrete decoded message refreshes the timestamp
and hands the updated connection to the handler. -/
theorem message_updates_before_handling_witness :
    handle_network_event (fun l => l.head?) (some ⟨1, 0⟩) 42 (.message 9 [7])
      = (some ⟨1, 42⟩, [.handlePacket ⟨1, 42⟩ 7], .ok ()) :=
  (message_updates_before_handling (fun l => l.head?) (some ⟨1, 0⟩) 9 42 [7] 7
    rfl).1 ⟨1, 0⟩ rfl

/-- C8: writing a packet performs exactly one transmission attempt; the
result is `Ok` exactly when the send status is `Sent`, any other status
is surfaced as an error without a retry, and the event loop contains the
error as a log entry — the connection is kept and `handle_event` returns
normally (its type has no error component). -/
theorem send_error_contained (encode : Packet → Option Bytes)
    (status : SendStatus) (c : Connection) (p : Packet) (d : Bytes)
    (h : encode p = some d) :
    sendAttempts (write_packet encode status c p).1 = 1
  ∧ ((write_packet encode status c p).2 = Except.ok () ↔
      status = SendStatus.sent)
  ∧ (∀ decode now, status ≠ SendStatus.sent →
      handle_event decode encode status (some c) now (.signal (.broadcast p))
        = (some c, [.sendAttempt c.endpoint d,
            .logError ("Error handling signal: " ++
              ("Send packet: " ++ "Could not send packet"))])) := by
  refine ⟨?_, ?_, ?_⟩
  · cases status <;> simp [write_packet, h, sendAttempts]
  · cases status <;> simp [write_packet, h]
  · intro decode now hs
    cases status with
    | sent => exact absurd rfl hs
    | maxPacketSizeExceeded =>
      simp [handle_event, handle_signal_event, write_packet, h]
    | resourceNotFound =>
      simp [handle_event, handle_signal_event, write_packet, h]
    | resourceNotAvailable =>
      simp [handle_event, handle_signal_event, write_packet, h]

/-- Witness for C8: a concrete failed send produces one attempt and one
log entry, and the slot is unchanged. -/
theorem send_error_contained_witness :
    handle_event (fun _ => none) (fun _ => some [1])
        SendStatus.resourceNotFound (some ⟨2, 0⟩) 0 (.signal (.broadcast 0))
      = (some ⟨2, 0⟩, [.sendAttempt 2 [1],
          .logError ("Error handling signal: " ++
            ("Send packet: " ++ "Could not send packet"))]) :=
  (send_error_contained (fun _ => some [1]) .resourceNotFound ⟨2, 0⟩ 0 [1]
    rfl).2.2 (fun _ => none) 0 (by decide)

/-- C9: a `Broadcast` signal processed with no current connection is
silently discarded — no transmission attempt, no error, no action, and
the connection slot is unchanged. -/
theorem broadcast_without_connection (encode : Packet → Option Bytes)
    (status : SendStatus) (p : Packet) :
    handle_signal_event encode status none (.broadcast p)
        = (none, [], .ok ())
  ∧ (∀ decode now,
      handle_event decode encode status none now (.signal (.broadcast p))
        = (none, []))
  ∧ sendAttempts (handle_signal_event encode status none (.broadcast p)).2.1
      = 0 := by
  refine ⟨rfl, ?_, rfl⟩
  intro decode now
  simp [handle_event, handle_signal_event]

/-- With a nonzero peer count, `compute_status` never returns `NoPeer`. -/
lemma compute_status_ne_noPeer (store : Store) (p : Int) (now : Nat)
    (hp : p ≠ 0) : compute_status store p now ≠ .noPeer := by
  unfold compute_status
  rw [if_neg hp]
  cases h1 : store.get .armed with
  | none => simp
  | some v =>
    cases v with
    | armed a =>
      cases a with
      | armed =>
        cases h2 : store.get_alive .motorSpeed MAX_UPDATE_AGE now with
        | none => simp
        | some w =>
          cases w with
          | speeds l =>
            cases h3 : maxAbsSpeed l with
            | none => simp [h3]
            | some m => simp [h3]
          | armed _ => simp
          | status _ => simp
          | nat _ => simp
      | disarmed => simp
    | speeds _ => simp
    | status _ => simp
    | nat _ => simp

/-- Counterexample to C2: the motor-speed map has one last-write
timestamp for the whole token, so staleness is per-token, never
per-motor.  At `now = 1000` with max age 500 ms, the map `{0 ↦ 40%,
1 ↦ 61%}` yields `Moving(61%)` when its timestamp is fresh (written
100 ms ago) and `Ready` when it is stale (written 600 ms ago) — in no
state of the code is the claimed `Moving(40%)` produced. -/
theorem staleness_is_per_token_counterexample :
    compute_status (c2Store 900) 1 1000 = .moving 61
  ∧ compute_status (c2Store 400) 1 1000 = .ready
  ∧ compute_status (c2Store 900) 1 1000 ≠ .moving 40
  ∧ compute_status (c2Store 400) 1 1000 ≠ .moving 40 := by
  refine ⟨by decide, by decide, by decide, by decide⟩

/-- C2 (amended): the status precedence — `NoPeer` on zero peers,
`Disarmed` when the armed flag is absent or false, `Ready` when armed
without live motor-speed data, `Moving(max abs speed)` when armed and the
motor-speed map is non-stale — with staleness applied per token: the
whole map has one last-write timestamp, so a fresh map containing
`{40%, 61%}` yields `Moving(61%)` and a stale one yields `Ready`. -/
theorem compute_status_precedence (store : Store) (now : Nat) (p : Int)
    (hp : p ≠ 0) :
    compute_status store 0 now = .noPeer
  ∧ (store.get .armed = none → compute_status store p now = .disarmed)
  ∧ (store.get .armed = some (.armed .disarmed) →
      compute_status store p now = .disarmed)
  ∧ (store.get .armed = some (.armed .armed) →
      (store.get_alive .motorSpeed MAX_UPDATE_AGE now = none →
        compute_status store p now = .ready)
    ∧ (∀ l, store.get_alive .motorSpeed MAX_UPDATE_AGE now
          = some (.speeds l) →
        compute_status store p now
          = match maxAbsSpeed l with
            | some m => .moving m
            | none => .ready))
  ∧ compute_status (c2Store 900) 1 1000 = .moving 61
  ∧ compute_status (c2Store 400) 1 1000 = .ready := by
  refine ⟨by simp [compute_status], ?_, ?_, ?_, by decide, by decide⟩
  · intro h
    simp [compute_status, hp, h]
  · intro h
    simp [compute_status, hp, h]
  · intro h
    constructor
    · intro h2
      simp [compute_status, hp, h, h2]
    · intro l h2
      simp [compute_status, hp, h, h2]

/-- Witness for C2's amended theorem: the empty store with one peer is
`Disarmed`. -/
theorem compute_status_precedence_witness :
    compute_status ⟨[]⟩ 1 0 = .disarmed :=
  (compute_status_precedence ⟨[]⟩ 0 1 (by decide)).2.1 rfl

/-- A `PeerDisconnected` event decrements the peer counter, whichever
publication branch the iteration takes. -/
lemma status_step_disconnect_peers (s : StatusState) (e : Nat) (now : Nat) :
    (status_step s (.peerDisconnected e) now).1.peers = s.peers - 1 := by
  simp only [status_step, status_publish]
  split
  · rfl
  · rfl

/-- C10: `compute_status` returns `NoPeer` exactly when the peer count is
zero; the status loop decrements its counter on every `PeerDisconnected`
with no lower bound, so a disconnect without a matching connect drives
the counter to `-1` and the computed status is then not `NoPeer`. -/
theorem noPeer_iff_zero_peers (store : Store) (now : Nat) (p : Int) :
    (compute_status store p now = .noPeer ↔ p = 0)
  ∧ (∀ (s : StatusState) (e : Nat),
      (status_step s (.peerDisconnected e) now).1.peers = s.peers - 1)
  ∧ (∀ (s : StatusState) (e : Nat), s.peers = 0 →
      compute_status s.store
        ((status_step s (.peerDisconnected e) now).1.peers) now
        ≠ .noPeer) := by
  refine ⟨⟨fun h => ?_, fun h => by simp [compute_status, h]⟩, ?_, ?_⟩
  · by_contra hp
    exact compute_status_ne_noPeer store p now hp h
  · intro s e
    exact status_step_disconnect_peers s e now
  · intro s e h
    rw [status_step_disconnect_peers s e now, h]
    exact compute_status_ne_noPeer s.store (0 - 1) now (by decide)

/-- Witness for C10: from an empty state with zero peers, one
`PeerDisconnected` leaves a computed status other than `NoPeer`. -/
theorem noPeer_iff_zero_peers_witness :
    compute_status ⟨[]⟩
      ((status_step ⟨⟨[]⟩, 0, none⟩ (.peerDisconnected 0) 0).1.peers) 0
      ≠ .noPeer :=
  (noPeer_iff_zero_peers ⟨[]⟩ 0 0).2.2 ⟨⟨[]⟩, 0, none⟩ 0 rfl

/-- Counterexample to C5: a `SyncStore` event first clears the
last-published marker, so the next recomputation is published even when
it equals the last published status.  From the initial state, a peer
connect publishes `Disarmed`; the following resync request publishes
`Disarmed` again — a store/broadcast of a status that does not differ
from the last published one. -/
theorem sync_republishes_unchanged_status :
    (status_run statusInit [.peerConnected 0, .syncStore] 5).2
      = [RobotStatus.disarmed, RobotStatus.disarmed] := by decide

/-- Looking up the key just set finds the new value. -/
lemma alookup_aset_self {β : Type} (l : List (Key × β)) (k : Key) (v : β) :
    alookup (aset l k v) k = some v := by
  induction l with
  | nil => simp [aset, alookup]
  | cons kv rest ih =>
    obtain ⟨k', v'⟩ := kv
    by_cases h : k' = k
    · simp [aset, h, alookup]
    · simp [aset, h, alookup, ih]

/-- Inserting at a token stores its value behind that token. -/
lemma store_get_insert_self (s : Store) (k : Key) (v : Value) (now : Nat) :
    (s.insert k v now).1.get k = some v := by
  simp [Store.insert, Store.get, alookup_aset_self]

/-- `status_publish` emits the computed status exactly when it differs
from the `last_status` marker. -/
lemma status_publish_out (s1 : StatusState) (now : Nat) :
    (status_publish s1 now).2
      = if s1.last_status = some (compute_status s1.store s1.peers now)
        then [] else [compute_status s1.store s1.peers now] := by
  by_cases h : s1.last_status = some (compute_status s1.store s1.peers now)
  · simp [status_publish, h]
  · simp [status_publish, h]

/-- A published status is recorded in the marker and stored behind the
`STATUS` token. -/
lemma status_publish_mark (s1 : StatusState) (now : Nat) (st : RobotStatus)
    (h : (status_publish s1 now).2 = [st]) :
    (status_publish s1 now).1.last_status = some st ∧
    (status_publish s1 now).1.store.get .status = some (.status st) := by
  by_cases hc : s1.last_status = some (compute_status s1.store s1.peers now)
  · simp [status_publish, hc] at h
  · simp only [status_publish, if_pos (by simpa using hc)] at h ⊢
    have he : compute_status s1.store s1.peers now = st := by
      simpa using h
    constructor
    · simp [he]
    · rw [← he]
      exact store_get_insert_self _ _ _ _

/-- C5 (amended): every peer-count change, store update, foreign-store
reset and error recomputes the status and publishes it exactly when it
differs from the `last_status` marker; a resync request (`SyncStore`)
first clears the marker, so it always publishes the recomputed status —
even when it equals the last published one; a publication records the
status in the marker and behind the `STATUS` token; no other event
recomputes or publishes. -/
theorem status_recompute_and_publish (s : StatusState) (now e : Nat)
    (u : Update) (us : List Update) :
    ((status_step s (.peerConnected e) now).2
      = if s.last_status = some (compute_status s.store (s.peers + 1) now)
        then [] else [compute_status s.store (s.peers + 1) now])
  ∧ ((status_step s (.peerDisconnected e) now).2
      = if s.last_status = some (compute_status s.store (s.peers - 1) now)
        then [] else [compute_status s.store (s.peers - 1) now])
  ∧ ((status_step s (.storeUpd u) now).2
      = if s.last_status
          = some (compute_status (s.store.handle_update_shared u now)
              s.peers now)
        then []
        else [compute_status (s.store.handle_update_shared u now) s.peers now])
  ∧ ((status_step s .resetForignStore now).2
      = if s.last_status
          = some (compute_status s.store.reset_shared s.peers now)
        then [] else [compute_status s.store.reset_shared s.peers now])
  ∧ ((status_step s .errorEvent now).2
      = if s.last_status = some (compute_status s.store s.peers now)
        then [] else [compute_status s.store s.peers now])
  ∧ ((status_step s .syncStore now).2 = [compute_status s.store s.peers now])
  ∧ (∀ st, (status_step s (.peerConnected e) now).2 = [st] →
      (status_step s (.peerConnected e) now).1.last_status = some st
    ∧ (status_step s (.peerConnected e) now).1.store.get .status
        = some (.status st))
  ∧ ((status_step s .exitEvent now).2 = [])
  ∧ ((status_step s (.stateUpdate us) now).2 = [])
  ∧ ((status_step s .stateRefresh now).2 = []) := by
  refine ⟨status_publish_out _ now, status_publish_out _ now,
    status_publish_out _ now, status_publish_out _ now,
    status_publish_out _ now, ?_, ?_, rfl, rfl, rfl⟩
  · rw [show (status_step s .syncStore now)
        = status_publish { s with last_status := none } now from rfl,
      status_publish_out]
    simp
  · intro st h
    exact status_publish_mark _ now st h

/-- Witness for C5's amended theorem: the first publication from the
initial state records `Disarmed` in the marker and the `STATUS` token. -/
theorem status_recompute_and_publish_witness :
    (status_step statusInit (.peerConnected 0) 5).1.last_status
        = some RobotStatus.disarmed
  ∧ (status_step statusInit (.peerConnected 0) 5).1.store.get .status
      = some (.status RobotStatus.disarmed) :=
  (status_recompute_and_publish statusInit 5 0 (.armed, none) []).2.2.2.2.2.2.1
    RobotStatus.disarmed (by decide)

/-- Counterexample to C3: on the surface side, `update_robot` reacts to a
`Disconnected` event by calling `reset()`, which clears the whole store —
a locally-authored (`owned`) entry is removed as well, contradicting
"preserves locally-authored ones". -/
theorem disconnect_clears_owned_counterexample :
    c3Store.origin .armed = some .owned
  ∧ (update_robot c3Store [.disconnectedS 0] 1).get .armed = none
  ∧ (update_robot c3Store [.disconnectedS 0] 1).get (.other 0) = none := by
  refine ⟨by decide, by decide, by decide⟩

/-- Filtering with any predicate cannot make an absent key present. -/
lemma alookup_filter_none {β : Type} (l : List (Key × β))
    (p : Key × β → Bool) (k : Key) (h : alookup l k = none) :
    alookup (l.filter p) k = none := by
  induction l with
  | nil => simp [alookup]
  | cons kv rest ih =>
    obtain ⟨k', v'⟩ := kv
    by_cases hk : k' = k
    · simp [alookup, hk] at h
    · simp only [alookup, if_neg hk] at h
      by_cases hp : p (k', v')
      · simp [List.filter_cons, hp, alookup, hk, ih h]
      · simp [List.filter_cons, hp, ih h]

/-- An absent key stays absent: a key with no entry is unaffected. -/
lemma alookup_eq_none_of_not_mem {β : Type} (l : List (Key × β)) (k : Key)
    (h : k ∉ l.map Prod.fst) : alookup l k = none := by
  induction l with
  | nil => rfl
  | cons kv rest ih =>
    obtain ⟨k', v'⟩ := kv
    simp only [List.map_cons, List.mem_cons] at h
    push_neg at h
    simp only [alookup]
    rw [if_neg (Ne.symm h.1)]
    exact ih h.2

/-- `reset_shared` keeps an owned entry in place. -/
lemma alookup_filter_owned (l : List (Key × StoreEntry)) (k : Key)
    (e : StoreEntry) (he : alookup l k = some e) (ho : e.origin = .owned) :
    alookup (l.filter fun kv => kv.2.origin = .owned) k = some e := by
  induction l with
  | nil => simp [alookup] at he
  | cons kv rest ih =>
    obtain ⟨k', e'⟩ := kv
    by_cases hk : k' = k
    · simp only [alookup, if_pos hk, Option.some.injEq] at he
      subst he
      simp [List.filter_cons, ho, alookup, hk]
    · simp only [alookup, if_neg hk] at he
      by_cases hp : e'.origin = Origin.owned
      · simp [List.filter_cons, hp, alookup, hk, ih he]
      · simp [List.filter_cons, hp, ih he]

/-- With one entry per key, `reset_shared` removes a shared entry. -/
lemma alookup_filter_shared (l : List (Key × StoreEntry)) (k : Key)
    (e : StoreEntry) (hnd : (l.map Prod.fst).Nodup)
    (he : alookup l k = some e) (ho : e.origin = .shared) :
    alookup (l.filter fun kv => kv.2.origin = .owned) k = none := by
  induction l with
  | nil => simp [alookup] at he
  | cons kv rest ih =>
    obtain ⟨k', e'⟩ := kv
    rw [List.map_cons, List.nodup_cons] at hnd
    by_cases hk : k' = k
    · simp only [alookup, if_pos hk, Option.some.injEq] at he
      subst he
      have hr : alookup rest k = none := by
        refine alookup_eq_none_of_not_mem rest k ?_
        rw [← hk]
        exact hnd.1
      simp [List.filter_cons, ho, alookup_filter_none rest _ k hr]
    · simp only [alookup, if_neg hk] at he
      by_cases hp : e'.origin = Origin.owned
      · simp [List.filter_cons, hp, alookup, hk, ih hnd.2 he]
      · simp [List.filter_cons, hp, ih hnd.2 he]

/-- C3 (amended): the store-clearing performed by the surface side on a
`Disconnected` event is `reset()`, which removes every entry — including
locally-authored ones — so a subsequent `get` returns `None` for every
token; it is the store's `reset_shared()` (used by the robot's status
system on `ResetForignStore`) that removes the remotely-sourced entries
while preserving locally-authored ones. -/
theorem disconnect_reset_behavior (store : Store) (a now : Nat) (k : Key) :
    (update_robot store [.disconnectedS a] now).get k = none
  ∧ (store.origin k = some .owned →
      store.reset_shared.get k = store.get k)
  ∧ (store.wf → store.origin k = some .shared →
      store.reset_shared.get k = none) := by
  refine ⟨rfl, ?_, ?_⟩
  · intro h
    rw [Store.origin, Option.map_eq_some'] at h
    obtain ⟨e, he, ho⟩ := h
    simp [Store.reset_shared, Store.get,
      alookup_filter_owned store.entries k e he ho, he]
  · intro hw h
    rw [Store.origin, Option.map_eq_some'] at h
    obtain ⟨e, he, ho⟩ := h
    simp [Store.reset_shared, Store.get,
      alookup_filter_shared store.entries k e hw he ho]

/-- Witness for C3's amended theorem: on `c3Store`, `reset_shared` keeps
the owned `armed` entry and clears the shared one. -/
theorem disconnect_reset_behavior_witness :
    c3Store.reset_shared.get .armed = c3Store.get .armed
  ∧ c3Store.reset_shared.get (.other 0) = none :=
  ⟨(disconnect_reset_behavior c3Store 0 1 .armed).2.1 (by decide),
   (disconnect_reset_behavior c3Store 0 1 (.other 0)).2.2
     (by unfold Store.wf; decide) (by decide)⟩

/-- Setting one key leaves every other key's binding unchanged. -/
lemma alookup_aset_ne {β : Type} (l : List (Key × β)) (k k' : Key) (v : β)
    (h : ¬(k = k')) : alookup (aset l k v) k' = alookup l k' := by
  induction l with
  | nil => simp [aset, alookup, h]
  | cons kv rest ih =>
    obtain ⟨k0, v0⟩ := kv
    simp only [aset]
    by_cases h0 : k0 = k
    · have h2 : ¬(k0 = k') := by
        rw [h0]
        exact h
      simp [h0, alookup, h, h2]
    · by_cases h1 : k0 = k'
      · simp [h0, h1, alookup, Ne.symm h]
      · simp [h0, h1, alookup, ih]

/-- Removing one key leaves every other key's binding unchanged. -/
lemma alookup_aremove_ne {β : Type} (l : List (Key × β)) (k k' : Key)
    (h : ¬(k = k')) : alookup (aremove l k) k' = alookup l k' := by
  induction l with
  | nil => simp [aremove, alookup]
  | cons kv rest ih =>
    obtain ⟨k0, v0⟩ := kv
    simp only [aremove, decide_not] at ih ⊢
    rw [List.filter_cons]
    by_cases h0 : k0 = k
    · have h2 : ¬(k0 = k') := by
        rw [h0]
        exact h
      simp [h0, alookup, h, h2, ih]
    · by_cases h1 : k0 = k'
      · simp [h0, h1, alookup, Ne.symm h]
      · simp [h0, h1, alookup, ih]

/-- A state update touches only its own field. -/
lemma robot_update_preserves (r : RobotState) (u : Update) (k : Key)
    (h : ¬(u.1 = k)) :
    alookup (r.update u).1.fields k = alookup r.fields k := by
  obtain ⟨ku, vu⟩ := u
  cases vu with
  | some v => simpa [RobotState.update] using alookup_aset_ne r.fields ku k v h
  | none => simpa [RobotState.update] using alookup_aremove_ne r.fields ku k h

/-- Whether an update changes the state depends only on its own field's
current binding. -/
lemma robot_update_changed_congr (r r' : RobotState) (u : Update)
    (h : alookup r.fields u.1 = alookup r'.fields u.1) :
    (r.update u).2 = (r'.update u).2 := by
  obtain ⟨ku, vu⟩ := u
  cases vu <;> simp_all [RobotState.update]

/-- Filtering with pointwise-equal predicates gives the same list. -/
lemma filter_congr_mem {α : Type} (l : List α) (p q : α → Bool)
    (h : ∀ x ∈ l, p x = q x) : l.filter p = l.filter q := by
  induction l with
  | nil => rfl
  | cons a rest ih =>
    rw [List.filter_cons, List.filter_cons, h a (List.mem_cons_self a rest),
      ih fun x hx => h x (List.mem_cons_of_mem a hx)]

/-- With one update per field, the batch body collects exactly the
updates whose application changed the state — equivalently, those that
change it from the initial state. -/
lemma process_state_update_filter : ∀ (updates : List Update)
    (r : RobotState), (updates.map Prod.fst).Nodup →
    (process_state_update r updates).2
      = updates.filter fun u => (r.update u).2 := by
  intro updates
  induction updates with
  | nil =>
    intro r _
    rfl
  | cons u rest ih =>
    intro r h
    rw [List.map_cons, List.nodup_cons] at h
    have hrest : (process_state_update (r.update u).1 rest).2
        = rest.filter fun v => ((r.update u).1.update v).2 := ih _ h.2
    have hcong : (rest.filter fun v => ((r.update u).1.update v).2)
        = rest.filter fun v => (r.update v).2 := by
      refine filter_congr_mem rest _ _ ?_
      intro x hx
      refine robot_update_changed_congr _ _ x ?_
      refine robot_update_preserves r u x.1 ?_
      intro hcontra
      refine h.1 ?_
      rw [hcontra]
      exact List.mem_map_of_mem Prod.fst hx
    show ((process_state_update (r.update u).1 rest).1,
        if (r.update u).2 then u :: (process_state_update (r.update u).1 rest).2
        else (process_state_update (r.update u).1 rest).2).2
      = List.filter _ (u :: rest)
    rw [List.filter_cons]
    simp only [hrest, hcong]

/-- C4: a `StateUpdate` batch is applied under exactly one write-lock
acquisition, released before the single outbound event is emitted; that
event carries exactly the updates whose application changed the state —
with one update per field, each changed field appears exactly once and an
unchanged field does not appear. -/
theorem state_update_batch (r : RobotState) (updates : List Update)
    (h : (updates.map Prod.fst).Nodup) :
    ((robot_system_step r (.stateUpdate updates)).2.countP
        fun a => a = RAction.acquireWrite) = 1
  ∧ (robot_system_step r (.stateUpdate updates)).2
      = [.acquireWrite, .releaseWrite,
         .packetSend (updates.filter fun u => (r.update u).2)]
  ∧ ((updates.filter fun u => (r.update u).2).map Prod.fst).Nodup
  ∧ (∀ u ∈ updates, (r.update u).2 = false →
      u ∉ updates.filter fun v => (r.update v).2) := by
  have hmain : (robot_system_step r (.stateUpdate updates)).2
      = [.acquireWrite, .releaseWrite,
         .packetSend (updates.filter fun u => (r.update u).2)] := by
    simp [robot_system_step, process_state_update_filter updates r h]
  refine ⟨?_, hmain, ?_, ?_⟩
  · rw [hmain]
    rfl
  · exact h.sublist ((List.filter_sublist updates).map Prod.fst)
  · intro u _ hc hmem
    rw [List.mem_filter, hc] at hmem
    exact Bool.false_ne_true hmem.2

/-- Witness for C4: a two-update batch in which only the second update
changes the state emits one lock acquisition and one packet containing
only the changed update. -/
theorem state_update_batch_witness :
    (robot_system_step ⟨[(.armed, .nat 0)]⟩
        (.stateUpdate [(.armed, some (.nat 0)), (.other 1, some (.nat 2))])).2
      = [.acquireWrite, .releaseWrite,
         .packetSend ([(.armed, some (.nat 0)), (.other 1, some (.nat 2))].filter
           fun u => ((⟨[(.armed, .nat 0)]⟩ : RobotState).update u).2)] :=
  (state_update_batch ⟨[(.armed, .nat 0)]⟩
    [(.armed, some (.nat 0)), (.other 1, some (.nat 2))] (by decide)).2.1

/-- C7: when an owned update is drained and no adapter is registered for
its key, an error is logged, no network send event is emitted for that
update, and processing continues with the remaining updates (the failure
is not fatal); an update whose key has an adapter is serialized and sent
— with the payload when serialization succeeds, and as a bare delete
packet for a `none` payload. -/
theorem missing_adapter_drops_update
    (adapters : Key → Option (Value → Option Bytes)) (store : Store)
    (now : Nat) (u : Update) (rest : List Update) :
    (adapters u.1 = none →
      updates_to_packets adapters store (u :: rest) now
        = ((updates_to_packets adapters
              (store.handle_update_owned u now) rest now).1,
           .logError ("No adapter found for " ++ u.1.as_str)
             :: (updates_to_packets adapters
                  (store.handle_update_owned u now) rest now).2))
  ∧ (adapters u.1 = none →
      ∀ k d, SAction.send k d ∉ (updates_to_packets adapters store [u] now).2)
  ∧ (∀ ser v d, adapters u.1 = some ser → u.2 = some v → ser v = some d →
      updates_to_packets adapters store (u :: rest) now
        = ((updates_to_packets adapters
              (store.handle_update_owned u now) rest now).1,
           .send u.1 (some d)
             :: (updates_to_packets adapters
                  (store.handle_update_owned u now) rest now).2))
  ∧ (∀ ser, adapters u.1 = some ser → u.2 = none →
      updates_to_packets adapters store (u :: rest) now
        = ((updates_to_packets adapters
              (store.handle_update_owned u now) rest now).1,
           .send u.1 none
             :: (updates_to_packets adapters
                  (store.handle_update_owned u now) rest now).2)) := by
  refine ⟨?_, ?_, ?_, ?_⟩
  · intro h
    simp [updates_to_packets, h]
  · intro h k d
    simp [updates_to_packets, h]
  · intro ser v d hser hv hd
    simp [updates_to_packets, hser, hv, hd]
  · intro ser hser hv
    simp [updates_to_packets, hser, hv]

/-- Witness for C7: the key without an adapter is logged and dropped; the
key with an adapter is serialized and sent. -/
theorem missing_adapter_drops_update_witness :
    (updates_to_packets c7Adapters c3Store [((.other 0 : Key), none)] 1
      = ((updates_to_packets c7Adapters
            (c3Store.handle_update_owned ((.other 0 : Key), none) 1) [] 1).1,
         .logError ("No adapter found for " ++ (Key.other 0).as_str)
           :: (updates_to_packets c7Adapters
                (c3Store.handle_update_owned ((.other 0 : Key), none) 1)
                [] 1).2))
  ∧ (updates_to_packets c7Adapters c3Store
        [((.armed : Key), some (.armed .disarmed))] 1
      = ((updates_to_packets c7Adapters
            (c3Store.handle_update_owned
              ((.armed : Key), some (.armed .disarmed)) 1) [] 1).1,
         .send .armed (some [1])
           :: (updates_to_packets c7Adapters
                (c3Store.handle_update_owned
                  ((.armed : Key), some (.armed .disarmed)) 1) [] 1).2)) :=
  ⟨(missing_adapter_drops_update c7Adapters c3Store 1
      ((.other 0 : Key), none) []).1 rfl,
   (missing_adapter_drops_update c7Adapters c3Store 1
      ((.armed : Key), some (.armed .disarmed)) []).2.2.1
      (fun _ => some [1]) (.armed .disarmed) [1] rfl rfl rfl⟩
